import Mathlib

/-!
Verification of the EterfreeA/ThreadPool concurrency library.

Shallow embedding of the state-bearing parts of the library:

* `Condition` — the enhanced condition variable of `src/src/Condition.hpp`
  (predicated notify operations, modelled as event traces).
* `Thread` — the reusable worker thread of
  `src/Source/Concurrency/Thread.hpp` (state machine over the atomic
  `State` enum, null-data behaviour of the public interface, and the
  main-loop iteration with its exception handling).
* `TaskQueue` — the FIFO task manager of
  `src/Source/Concurrency/TaskQueue.cpp` (capacity policy, all-or-nothing
  batch put, 0-to-N notify transition).
* `ThreadPool` — the capacity bookkeeping of
  `src/Source/Concurrency/ThreadPool.cpp`.
* `Sorter` / `TaskMapper` — the keyed actor dispatcher of
  `src/Source/Concurrency/TaskMapper.hpp` together with the sorter of
  `src/Source/Sequence/Sorter.hpp`.

Machine integers (`std::size_t`) are modelled as `Nat`; the code never
relies on wrap-around (sizes only grow by small increments and the
subtractions are guarded).  `std::function` values are modelled by their
observable validity (a `Bool`), messages and steady-clock time stamps by
`Nat`.  Fallible operations return `Option`/pairs with a `Bool` result,
mirroring the boolean returns of the C++ interfaces.
-/

namespace ThreadPoolLib

/-! ## Condition (src/src/Condition.hpp)

The predicated notify operations are modelled as event traces: the
sequence of lock, predicate-evaluation, unlock and wake actions the
member function performs, in program order.  A predicate object is
described by its truthiness (`callable`, the boolean conversion of the
object) and by the value an invocation would return (`result`). -/

namespace Condition

/-- A predicate object handed to the predicated notify overloads. -/
structure CPred where
  callable : Bool
  result : Bool
deriving DecidableEq

/-- Events performed by a notify member function, in program order. -/
inductive CEvent where
  | lockC : CEvent
  | unlockC : CEvent
  | evalPred : CEvent
  | wakeOne : CEvent
  | wakeAll : CEvent
deriving DecidableEq

/-- `Condition::notify_one(_Predicate)` (lines 137-147): lock, evaluate
the predicate; if it returned true, unlock and wake one waiter,
otherwise just unlock at scope exit. -/
def notifyOnePred (p : CPred) : List CEvent :=
  [CEvent.lockC, CEvent.evalPred] ++
    (if p.result then [CEvent.unlockC, CEvent.wakeOne]
     else [CEvent.unlockC])

/-- `Condition::notify_all(_Predicate)` (lines 149-159). -/
def notifyAllPred (p : CPred) : List CEvent :=
  [CEvent.lockC, CEvent.evalPred] ++
    (if p.result then [CEvent.unlockC, CEvent.wakeAll]
     else [CEvent.unlockC])

/-- `Condition::notify(Size, _Predicate)` (lines 161-172): the source
tests `if (_predicate)` — the truthiness of the predicate OBJECT — and
never invokes it; when the object is truthy it unlocks and issues
`_size` wake-ups. -/
def notifyCountPred (n : Nat) (p : CPred) : List CEvent :=
  [CEvent.lockC] ++
    (if p.callable then
      [CEvent.unlockC] ++ List.replicate n CEvent.wakeOne
     else [CEvent.unlockC])

end Condition

/-! ## Thread (src/Source/Concurrency/Thread.hpp)

The worker is a handle around an atomic `shared_ptr<Structure>`; a
moved-from handle holds a null pointer, modelled by `Option`.  The
structure's observable state is the `State` enum, the validity of the
stored task functor and of the fetch functor, and the kernel thread id.
The outcome of invoking the external fetch functor is an oracle
argument (`fetchGives`): `true` means the fetch call returned `true`
with a valid task. -/

namespace Thread

/-- The `State` enum of `Thread` (lines 56-64). -/
inductive TState where
  | empty : TState
  | initial : TState
  | runnable : TState
  | running : TState
  | blocked : TState
deriving DecidableEq

/-- Observable content of `Thread::Structure` (lines 164-222). -/
structure TStruct where
  state : TState
  taskValid : Bool
  fetchValid : Bool
  tid : Nat
deriving DecidableEq

/-- The handle's atomic data pointer; `none` is a moved-from handle. -/
abbrev TData := Option TStruct

/-- `Thread::idle` (lines 341-351). -/
def idle (d : TData) : Bool :=
  match d with
  | none => false
  | some s => s.state == TState.initial || s.state == TState.blocked

/-- `Thread::getID` (lines 330-339); a null handle returns the
default-constructed `ThreadID`, modelled as `0`. -/
def getID (d : TData) : Nat :=
  match d with
  | none => 0
  | some s => s.tid

/-- `Thread::create` (lines 353-371). -/
def create (d : TData) : Bool × TData :=
  match d with
  | none => (false, none)
  | some s =>
    if s.state != TState.empty then (false, some s)
    else (true, some { s with state := TState.initial })

/-- Static `Thread::destroy` (lines 233-254) applied to the handle's
data: a null pointer returns at once; `EMPTY` state returns at once;
otherwise the thread is joined, the fetch/reply functors cleared and
the state reset to `EMPTY`. -/
def destroy (d : TData) : TData :=
  match d with
  | none => none
  | some s =>
    if s.state == TState.empty then some s
    else some { s with fetchValid := false, state := TState.empty }

/-- `Thread::configure(FetchType, ReplyType)` (lines 373-391);
`fetchArg` is the validity of the supplied fetch functor. -/
def configureFetch (d : TData) (fetchArg : Bool) : Bool × TData :=
  if !fetchArg then (false, d)
  else
    match d with
    | none => (false, none)
    | some s =>
      if !(idle (some s)) then (false, some s)
      else (true, some { s with fetchValid := fetchArg, state := TState.blocked })

/-- `Thread::configure(TaskType, ReplyType)` (lines 393-411);
`taskArg` is the validity of the supplied task functor. -/
def configureTask (d : TData) (taskArg : Bool) : Bool × TData :=
  if !taskArg then (false, d)
  else
    match d with
    | none => (false, none)
    | some s =>
      if !(idle (some s)) then (false, some s)
      else (true, some { s with state := TState.runnable, taskValid := true })

/-- Static `Thread::getTask` (lines 256-269): fails when the fetch
functor is invalid or the fetch produced no valid task; on success the
state becomes `RUNNABLE` and the task slot is set. -/
def structGetTask (s : TStruct) (fetchGives : Bool) : Bool × TStruct :=
  if !s.fetchValid then (false, s)
  else if !fetchGives then (false, s)
  else (true, { s with state := TState.runnable, taskValid := true })

/-- `Thread::notify` (lines 433-454). -/
def notify (d : TData) (fetchGives : Bool) : Bool × TData :=
  match d with
  | none => (false, none)
  | some s =>
    let st := s.state
    let r := if st == TState.blocked then structGetTask s fetchGives
             else (false, s)
    let st₁ := if st == TState.blocked && r.fst then TState.runnable else st
    if st₁ != TState.runnable then (false, some r.snd)
    else (true, some r.snd)

end Thread

/-- A C++ exception, distinguished by whether its dynamic type derives
from `std::exception` (the handler type of the catch clauses in
`Thread::execute` and `TaskMapper::execute`). -/
inductive Exn where
  | stdExn : Exn
  | otherExn : Exn
deriving DecidableEq

namespace Thread

/-- Result of one iteration of the `while` body of `Thread::execute`
(lines 282-313). -/
structure IterResult where
  state : TState
  taskValid : Bool
  replyIdle : Option Bool
  log : List Exn
  escaped : Option Exn
deriving DecidableEq

/-- The `try`/`catch` of `Thread::execute` (lines 288-299): the clause
`catch (std::exception&)` catches exactly the `std::exception`-derived
exceptions and logs them at `Level::ERROR`; any other exception
propagates. -/
def tryTask (outcome : Except Exn Unit) : List Exn × Option Exn :=
  match outcome with
  | Except.ok _ => ([], none)
  | Except.error Exn.stdExn => ([Exn.stdExn], none)
  | Except.error Exn.otherExn => ([], some Exn.otherExn)

/-- One iteration of the `while` body of `Thread::execute`
(lines 282-313): set `RUNNING`; move the task out of the slot and run
it under the try/catch when it was valid; read the reply functor;
attempt to self-fetch the next task; block when the fetch failed;
invoke the reply functor with the idle flag.  `outcome` is the result
of invoking the user task, `replyConfigured` the validity of the reply
functor, `fetchGives` the fetch oracle. -/
def iteration (s : TStruct) (replyConfigured : Bool)
    (outcome : Except Exn Unit) (fetchGives : Bool) : IterResult :=
  let s₀ : TStruct := { s with state := TState.running }
  let hadTask := s₀.taskValid
  let s₁ : TStruct := { s₀ with taskValid := false }
  let le := if hadTask then tryTask outcome else ([], none)
  match le.snd with
  | some e => ⟨s₁.state, s₁.taskValid, none, le.fst, some e⟩
  | none =>
    let r := structGetTask s₁ fetchGives
    let idleFlag := !r.fst
    let s₃ : TStruct :=
      if idleFlag then { r.snd with state := TState.blocked } else r.snd
    ⟨s₃.state, s₃.taskValid,
      if replyConfigured then some idleFlag else none, le.fst, none⟩

end Thread

namespace TaskMapper

/-- Result of `TaskMapper::execute` (lines 452-471): the error log, an
escaping exception if any, and whether `reply(index)` was reached. -/
structure ExecResult where
  log : List Exn
  escaped : Option Exn
  replied : Bool
deriving DecidableEq

/-- Static `TaskMapper::execute` (lines 452-471): run the handler on
the message when the handle is valid, catching `std::exception` and
logging it at `Level::ERROR`; then call `reply` on the mapper.  An
exception not derived from `std::exception` skips the reply call. -/
def executeWrap (handleValid : Bool) (outcome : Except Exn Unit) : ExecResult :=
  if handleValid then
    match outcome with
    | Except.ok _ => ⟨[], none, true⟩
    | Except.error Exn.stdExn => ⟨[Exn.stdExn], none, true⟩
    | Except.error Exn.otherExn => ⟨[], some Exn.otherExn, false⟩
  else ⟨[], none, true⟩

end TaskMapper

/-! ## TaskQueue (src/Source/Concurrency/TaskQueue.cpp with the fields
of src/Source/Eterfree/Concurrency/TaskQueue.h)

Tasks are modelled by the validity of the stored callable.  The pushed
time stamp is a parameter (`TimedTask::getSteadyTime()` in the
source).  The notify side of a push is modelled by an event trace. -/

namespace TaskQueue

/-- Observable state of a `TaskQueue`: capacity, the entry/exit task
and time lists, and the atomic size counter. -/
structure TQState where
  capacity : Nat
  entryTask : List Bool
  entryTime : List Nat
  exitTask : List Bool
  exitTime : List Nat
  size : Nat
deriving DecidableEq

/-- `TaskQueue::push(const TaskType&)` (lines 77-96): reject an
invalid task; under the entry mutex reject when a positive capacity is
already reached; otherwise append the task and its time stamp and bump
the size counter. -/
def push1 (q : TQState) (task : Bool) (t : Nat) : Bool × TQState :=
  if !task then (false, q)
  else if 0 < q.capacity && q.capacity ≤ q.size then (false, q)
  else
    (true, { q with entryTask := q.entryTask ++ [task],
                    entryTime := q.entryTime ++ [t],
                    size := q.size + 1 })

/-- `TaskQueue::valid(TaskList&)` (lines 66-75): no limit when the
capacity is zero (`SizeType` is unsigned, so `capacity <= 0` means
zero); otherwise the current size must be below capacity and the batch
must fit in the remainder. -/
def validB (q : TQState) (k : Nat) : Bool :=
  if q.capacity == 0 then true
  else decide (q.size < q.capacity) && decide (k ≤ q.capacity - q.size)

/-- `TaskQueue::put(TaskList&)` (lines 118-139): all-or-nothing splice
of the batch with one shared time stamp, guarded by `valid`. -/
def putBatch (q : TQState) (tasks : List Bool) (t : Nat) : Bool × TQState :=
  if !(validB q tasks.length) then (false, q)
  else
    (true, { q with entryTask := q.entryTask ++ tasks,
                    entryTime := q.entryTime ++ List.replicate tasks.length t,
                    size := q.size + tasks.length })

/-- Locking and callback events of a push, in program order. -/
inductive QEvent where
  | lockEntry : QEvent
  | unlockEntry : QEvent
  | callback : QEvent
deriving DecidableEq

/-- Event trace of `TaskQueue::push(const TaskType&)` (lines 77-96):
an invalid task returns before locking; otherwise the entry mutex is
locked, the push performed or rejected, the mutex released, and —
only after the release — `notify()` invoked when `add(1)` returned
zero (the size before the push). -/
def push1Trace (q : TQState) (task : Bool) : List QEvent :=
  if !task then []
  else if 0 < q.capacity && q.capacity ≤ q.size then
    [QEvent.lockEntry, QEvent.unlockEntry]
  else
    [QEvent.lockEntry, QEvent.unlockEntry] ++
      (if q.size == 0 then [QEvent.callback] else [])

/-- Event trace of `TaskQueue::put(TaskList&)` (lines 118-139). -/
def putBatchTrace (q : TQState) (k : Nat) : List QEvent :=
  if !(validB q k) then [QEvent.lockEntry, QEvent.unlockEntry]
  else
    [QEvent.lockEntry, QEvent.unlockEntry] ++
      (if q.size == 0 then [QEvent.callback] else [])

end TaskQueue

/-! ## ThreadPool capacity bookkeeping
(src/Source/Concurrency/ThreadPool.cpp) -/

namespace ThreadPool

/-- The pool's capacity atomic. -/
structure PoolState where
  capacity : Nat
deriving DecidableEq

/-- The capacity normalisation of `ThreadPool::create` (line 172):
`_capacity = _capacity > 0 ? _capacity : 1`, stored by
`setCapacity` (line 196). -/
def poolCreate (c : Nat) : PoolState :=
  ⟨if 0 < c then c else 1⟩

/-- `ThreadPool::setCapacity` (lines 458-468): only a positive request
is stored; zero returns `false` and changes nothing. -/
def poolSetCapacity (p : PoolState) (c : Nat) : Bool × PoolState :=
  if 0 < c then (true, ⟨c⟩) else (false, p)

end ThreadPool

/-! ## Sorter (src/Source/Sequence/Sorter.hpp) specialised to the
records of TaskMapper (src/Source/Concurrency/TaskMapper.hpp)

The C++ sorter pairs an `unordered_map` from id to record with a
`std::set` of the same records ordered by `Record::operator<`.  Both
views hold at most one record per id, so the pair is modelled as a
list of records with the set operations defined on it: `front(true)`
is the minimum under the record order, `update` replaces the record
with the same id (or inserts), `remove` deletes by id. -/

namespace TaskMapper

/-- `TaskMapper::Record` (lines 295-307): a key index and the oldest
time stamp of its queue. -/
structure Record where
  index : Nat
  time : Nat
deriving DecidableEq

/-- `Record::operator<` (lines 436-441): earlier time first, ties
broken by smaller index. -/
def Record.ltb (a b : Record) : Bool :=
  decide (a.time < b.time) ||
    (a.time == b.time && decide (a.index < b.index))

/-- The sorter's contents (one record per live id). -/
abbrev Sorter := List Record

/-- `Sorter::exist` (Sorter.hpp lines 104-108). -/
def Sorter.exist : Sorter → Nat → Bool
  | [], _ => false
  | r :: rs, k => r.index == k || Sorter.exist rs k

/-- `Sorter::remove` (Sorter.hpp lines 359-369): erase the record with
the given id. -/
def Sorter.remove : Sorter → Nat → Sorter
  | [], _ => []
  | r :: rs, k =>
    if r.index != k then r :: Sorter.remove rs k else Sorter.remove rs k

/-- `Sorter::update` (Sorter.hpp lines 340-357): drop the old record
with the same id, insert the new one. -/
def Sorter.update (s : Sorter) (r : Record) : Sorter :=
  Sorter.remove s r.index ++ [r]

/-- `Sorter::find` (Sorter.hpp lines 330-338): the record stored for
an id, if any. -/
def Sorter.findRec : Sorter → Nat → Option Record
  | [], _ => none
  | r :: rs, k => if r.index == k then some r else Sorter.findRec rs k

/-- `Sorter::front(true)` (Sorter.hpp lines 371-378): the begin of the
ordered set, i.e. the minimum record under `Record::operator<`. -/
def Sorter.front : Sorter → Option Record
  | [] => none
  | r :: rs =>
    some (rs.foldl (fun acc x => if Record.ltb x acc then x else acc) r)

/-- `TaskMapper::Handler` (lines 309-349): validity of the handle
functor, the parallel flag and the idle flag. -/
structure Handler where
  handleValid : Bool
  parallel : Bool
  idle : Bool
deriving DecidableEq

/-- A per-key message queue, `TaskMapper::Queue` (lines 256-293):
message list and time-stamp list kept in lock step. -/
structure MQueue where
  messageQueue : List Nat
  timeQueue : List Nat
deriving DecidableEq

/-- `Queue::time` (lines 351-359): the front of the time list. -/
def MQueue.time (q : MQueue) : Option Nat :=
  q.timeQueue.head?

/-- `Queue::push` single-message overloads (lines 361-383): append the
message and the current steady time, return the size before the
push. -/
def MQueue.push1 (q : MQueue) (m t : Nat) : Nat × MQueue :=
  (q.messageQueue.length,
    ⟨q.messageQueue ++ [m], q.timeQueue ++ [t]⟩)

/-- `Queue::pop` (lines 412-423): fail on an empty message list,
otherwise pop the front of both lists. -/
def MQueue.pop (q : MQueue) : Option (Nat × MQueue) :=
  match q.messageQueue with
  | [] => none
  | m :: ms => some (m, ⟨ms, q.timeQueue.tail⟩)

/-- Association-list lookup, the model of `find` on the handler/queue
maps (`findHandler` lines 539-548, `findQueue` lines 562-571). -/
def alFind {α : Type} : List (Nat × α) → Nat → Option α
  | [], _ => none
  | p :: rest, k => if p.fst == k then some p.snd else alFind rest k

/-- Association-list update of an existing key, the model of a
mutation through the shared pointer stored in the map. -/
def alSet {α : Type} : List (Nat × α) → Nat → α → List (Nat × α)
  | [], _, _ => []
  | p :: rest, k, v =>
    (if p.fst == k then (k, v) else p) :: alSet rest k v

/-- Observable state of a `TaskMapper` (lines 84-102): the handler
map, the queue map, the task-count atomic and the sorter. -/
structure MapperState where
  handleMapper : List (Nat × Handler)
  queueMapper : List (Nat × MQueue)
  size : Nat
  sorter : Sorter
deriving DecidableEq

/-- `TaskMapper::getQueue` (lines 573-589): the queue of the key,
created on demand.  Returns the queue and the possibly extended
map. -/
def getQueue (qm : List (Nat × MQueue)) (k : Nat) :
    MQueue × List (Nat × MQueue) :=
  match alFind qm k with
  | some q => (q, qm)
  | none => (⟨[], []⟩, qm ++ [(k, ⟨[], []⟩)])

/-- `TaskMapper::sort` (lines 618-637): look up the key's queue and
its oldest time; do nothing when the key is already sorted; otherwise
insert the record (the `notify()` on the empty-to-nonempty transition
is outside the mapper state). -/
def MapperState.sortIdx (m : MapperState) (k : Nat) : MapperState × Bool :=
  match alFind m.queueMapper k with
  | none => (m, false)
  | some q =>
    match q.time with
    | none => (m, false)
    | some t =>
      if Sorter.exist m.sorter k then (m, false)
      else ({ m with sorter := Sorter.update m.sorter ⟨k, t⟩ }, true)

/-- `TaskMapper::push` (lines 639-647): sort the key only when its
handler exists, has a valid handle and is idle. -/
def MapperState.pushIdx (m : MapperState) (k : Nat) : MapperState × Bool :=
  match alFind m.handleMapper k with
  | some h =>
    if h.handleValid && h.idle then m.sortIdx k else (m, false)
  | none => (m, false)

/-- `TaskMapper::pop` (lines 649-665): repeatedly take the front
record of the sorter; return its index when a handler entry exists for
it, otherwise remove the stale record and retry.  The loop removes one
record per round, so the sorter length bounds the rounds. -/
def popAux (hm : List (Nat × Handler)) :
    Nat → Sorter → Option Nat × Sorter
  | 0, s => (none, s)
  | fuel + 1, s =>
    match Sorter.front s with
    | none => (none, s)
    | some r =>
      if (alFind hm r.index).isSome then (some r.index, s)
      else popAux hm fuel (Sorter.remove s r.index)

/-- `TaskMapper::pop` entry point. -/
def MapperState.pop (m : MapperState) : Option Nat × Sorter :=
  popAux m.handleMapper m.sorter.length m.sorter

/-- `TaskMapper::take` (lines 485-522): pop a schedulable index; look
up its handler and queue; pop one message.  A serial handler is marked
busy (`idle := false`); a parallel handler keeps its idle flag and the
sorter record is refreshed to the queue's new oldest time when the
queue is still non-empty, removed otherwise.  The count is
decremented.  Returns the dispatched index and the new state. -/
def MapperState.take (m : MapperState) : Option (Nat × MapperState) :=
  match m.pop with
  | (none, _) => none
  | (some k, s₁) =>
    match alFind m.handleMapper k with
    | none => none
    | some handler =>
      match alFind m.queueMapper k with
      | none => none
      | some q =>
        match q.pop with
        | none => none
        | some (_msg, q₁) =>
          let idle₀ := handler.parallel
          let hm₁ :=
            if idle₀ then m.handleMapper
            else alSet m.handleMapper k { handler with idle := false }
          let r₁ :=
            if idle₀ then
              match q₁.time with
              | some t => (true, Sorter.update s₁ ⟨k, t⟩)
              | none => (false, s₁)
            else (false, s₁)
          let s₃ := if r₁.fst then r₁.snd else Sorter.remove r₁.snd k
          some (k, { handleMapper := hm₁,
                     queueMapper := alSet m.queueMapper k q₁,
                     size := m.size - 1,
                     sorter := s₃ })

/-- `TaskMapper::put` single-message overloads (lines 746-793): fetch
or create the key's queue, push the message with its time stamp, bump
the count, and attempt to schedule the key when the queue was empty
before the push. -/
def MapperState.put (m : MapperState) (k msg t : Nat) : Bool × MapperState :=
  let qq := getQueue m.queueMapper k
  let r := qq.fst.push1 msg t
  let m₁ : MapperState :=
    { m with queueMapper := alSet qq.snd k r.snd, size := m.size + 1 }
  let m₂ := if r.fst == 0 then (m₁.pushIdx k).fst else m₁
  (true, m₂)

/-- `TaskMapper::set` (lines 667-744) with the handle given by its
validity.  With an existing handler: a null handle removes the key
from the sorter; `assign` overwrites handle and parallel flag (the
idle flag is untouched); an invalid-to-valid transition of an idle
handler re-sorts the key.  Without one: a null handle is accepted and
does nothing, a valid handle installs a fresh idle handler and sorts
the key. -/
def MapperState.setHandle (m : MapperState) (k : Nat)
    (handleValid par : Bool) : Bool × MapperState :=
  match alFind m.handleMapper k with
  | some handler =>
    let s₁ := if handleValid then m.sorter else Sorter.remove m.sorter k
    let h₁ : Handler :=
      { handler with handleValid := handleValid, parallel := par }
    let m₁ : MapperState :=
      { m with handleMapper := alSet m.handleMapper k h₁, sorter := s₁ }
    let m₂ :=
      if (!handler.handleValid && handleValid) && handler.idle then
        (m₁.sortIdx k).fst
      else m₁
    (true, m₂)
  | none =>
    if !handleValid then (true, m)
    else
      let m₁ : MapperState :=
        { m with handleMapper := m.handleMapper ++ [(k, ⟨true, par, true⟩)] }
      (true, (m₁.sortIdx k).fst)

/-- `TaskMapper::reply` (lines 602-616): set the handler idle; when it
was busy and its handle is valid, re-sort the key. -/
def MapperState.reply (m : MapperState) (k : Nat) : MapperState :=
  match alFind m.handleMapper k with
  | none => m
  | some h =>
    let m₁ : MapperState :=
      { m with handleMapper := alSet m.handleMapper k { h with idle := true } }
    if !h.idle && h.handleValid then (m₁.sortIdx k).fst else m₁

/-- A key is parked: its handler entry exists with an invalid handle
and the key is absent from the sorter. -/
def MapperState.parkedB (m : MapperState) (k : Nat) : Bool :=
  (match alFind m.handleMapper k with
   | some h => !h.handleValid
   | none => false) && !(Sorter.exist m.sorter k)

/-- A concrete mapper: key `5` carries a serial handler and one
pending message (time stamp `10`). -/
def sampleSerial : MapperState :=
  { handleMapper := [(5, ⟨true, false, true⟩)],
    queueMapper := [(5, ⟨[42], [10]⟩)],
    size := 1,
    sorter := [⟨5, 10⟩] }

/-- A concrete empty mapper. -/
def sampleEmpty : MapperState :=
  { handleMapper := [], queueMapper := [], size := 0, sorter := [] }

end TaskMapper

/-! ## Theorems -/

/-- C7: the claim states that all three predicated notify operations —
`notify_one(pred)`, `notify_all(pred)` and the counted
`notify(n, pred)` — issue wake-ups if and only if `pred()` returns
true, with the predicate evaluated under the mutex.  The two
single-shot overloads do behave that way, but the counted overload
(Condition.hpp lines 161-172) tests `if (_predicate)` — the
truthiness of the predicate object — instead of invoking it: with a
valid predicate object whose invocation returns `false`,
`notify(1, pred)` still issues a wake-up and never evaluates the
predicate. -/
theorem claim7_notify_count_ignores_predicate :
    (∀ p : Condition.CPred,
      ((Condition.notifyOnePred p).take 2 =
        [Condition.CEvent.lockC, Condition.CEvent.evalPred]) ∧
      (Condition.CEvent.wakeOne ∈ Condition.notifyOnePred p ↔ p.result = true) ∧
      ((Condition.notifyAllPred p).take 2 =
        [Condition.CEvent.lockC, Condition.CEvent.evalPred]) ∧
      (Condition.CEvent.wakeAll ∈ Condition.notifyAllPred p ↔ p.result = true)) ∧
    Condition.notifyCountPred 1 ⟨true, false⟩ =
      [Condition.CEvent.lockC, Condition.CEvent.unlockC,
        Condition.CEvent.wakeOne] ∧
    Condition.CEvent.evalPred ∉ Condition.notifyCountPred 1 ⟨true, false⟩ ∧
    Condition.CEvent.wakeOne ∈ Condition.notifyCountPred 1 ⟨true, false⟩ := by
  refine ⟨?_, by decide, by decide, by decide⟩
  intro p
  cases hp : p.result <;>
    simp [Condition.notifyOnePred, Condition.notifyAllPred, hp]

/-- C8: a requested thread-pool capacity of `0` is normalised to `1`
by `ThreadPool::create` (line 172), and `ThreadPool::setCapacity(0)`
(lines 458-468) rejects the request and leaves the stored capacity —
which is at least `1` for every created pool — unchanged. -/
theorem claim8_capacity_at_least_one :
    (ThreadPool.poolCreate 0).capacity = 1 ∧
    (∀ c, 1 ≤ (ThreadPool.poolCreate c).capacity) ∧
    (∀ p, ThreadPool.poolSetCapacity p 0 = (false, p)) ∧
    (∀ p : ThreadPool.PoolState, 1 ≤ p.capacity →
      1 ≤ (ThreadPool.poolSetCapacity p 0).snd.capacity) := by
  refine ⟨rfl, ?_, ?_, ?_⟩
  · intro c
    simp only [ThreadPool.poolCreate]
    split <;> omega
  · intro p
    simp [ThreadPool.poolSetCapacity]
  · intro p hp
    simpa [ThreadPool.poolSetCapacity] using hp

/-- Witness for C8 at the concrete pool with capacity `3`. -/
theorem claim8_capacity_at_least_one_witness :
    1 ≤ (⟨3⟩ : ThreadPool.PoolState).capacity ∧
    1 ≤ (ThreadPool.poolSetCapacity ⟨3⟩ 0).snd.capacity :=
  ⟨by decide, claim8_capacity_at_least_one.2.2.2 ⟨3⟩ (by decide)⟩

/-- C9: on a `Thread` handle whose data pointer is null (moved-from),
every public operation fails benignly: `idle` is `false`, `getID`
yields the default `ThreadID`, `create`, `configure` and `notify`
return `false` leaving the null pointer in place, and `destroy` is a
no-op. -/
theorem claim9_null_handle_benign :
    Thread.idle none = false ∧
    Thread.getID none = 0 ∧
    Thread.create none = (false, none) ∧
    (∀ f, Thread.configureFetch none f = (false, none)) ∧
    (∀ t, Thread.configureTask none t = (false, none)) ∧
    (∀ g, Thread.notify none g = (false, none)) ∧
    Thread.destroy none = none := by
  refine ⟨rfl, rfl, rfl, ?_, ?_, ?_, rfl⟩ <;> intro b <;> cases b <;> rfl

/-- C3: a single-task `put` fails, leaving the queue untouched,
exactly when the task is an invalid callable or a positive capacity is
already reached; a batch `put` of `k` tasks fails, leaving the queue
untouched, unless the capacity is zero (unbounded) or the batch fits
(`size < capacity` and `k ≤ capacity - size`); a failed put appends
nothing. -/
theorem claim3_taskQueue_put_rejection :
    ∀ (q : TaskQueue.TQState) (task : Bool) (t : Nat) (tasks : List Bool),
      (((TaskQueue.push1 q task t).fst = false ∧
          (TaskQueue.push1 q task t).snd = q) ↔
        (task = false ∨ (0 < q.capacity ∧ q.capacity ≤ q.size))) ∧
      (((TaskQueue.putBatch q tasks t).fst = false ∧
          (TaskQueue.putBatch q tasks t).snd = q) ↔
        ¬(q.capacity = 0 ∨
          (q.size < q.capacity ∧ tasks.length ≤ q.capacity - q.size))) := by
  intro q task t tasks
  constructor
  · cases task with
    | false => simp [TaskQueue.push1]
    | true =>
      by_cases hfull : 0 < q.capacity ∧ q.capacity ≤ q.size
      · simp [TaskQueue.push1, hfull.1, hfull.2]
      · have hb : (decide (0 < q.capacity) && decide (q.capacity ≤ q.size)) = false := by
          rcases Nat.lt_or_ge 0 q.capacity with h1 | h1
          · rcases Nat.lt_or_ge q.size q.capacity with h2 | h2
            · simp [Nat.not_le.mpr h2]
            · exact absurd ⟨h1, h2⟩ hfull
          · simp [Nat.le_zero.mp h1]
        refine ⟨fun hc => absurd hc.1 ?_, fun hc => ?_⟩
        · simp [TaskQueue.push1, hb]
        · rcases hc with hc | hc
          · exact absurd hc (by simp)
          · exact absurd hc hfull
  · by_cases hv : TaskQueue.validB q tasks.length = true
    · have hrhs : q.capacity = 0 ∨
          (q.size < q.capacity ∧ tasks.length ≤ q.capacity - q.size) := by
        by_cases hc : q.capacity = 0
        · exact Or.inl hc
        · right
          have := hv
          simp [TaskQueue.validB, hc] at this
          exact this
      simp [TaskQueue.putBatch, hv, hrhs]
    · have hb := Bool.not_eq_true _ |>.mp hv
      have hrhs : ¬(q.capacity = 0 ∨
          (q.size < q.capacity ∧ tasks.length ≤ q.capacity - q.size)) := by
        rintro (hc | hc)
        · simp [TaskQueue.validB, hc] at hb
        · have : TaskQueue.validB q tasks.length = true := by
            by_cases hz : q.capacity = 0
            · simp [TaskQueue.validB, hz]
            · simp [TaskQueue.validB, hz, hc.1, hc.2]
          exact hv this
      simp [TaskQueue.putBatch, hb, hrhs]

/-- C6, counterexample: an exception whose dynamic type does not
derive from `std::exception` is not caught by the
`catch (std::exception&)` clause of `Thread::execute` (lines 288-299)
or `TaskMapper::execute` (lines 452-471): at this concrete input it
escapes the loop body, and the mapper wrapper never reaches its
`reply` call — the claim that any exception is caught fails. -/
theorem claim6_counterexample :
    (Thread.iteration ⟨Thread.TState.running, true, true, 0⟩ true
        (Except.error Exn.otherExn) false).escaped = some Exn.otherExn ∧
    (TaskMapper.executeWrap true (Except.error Exn.otherExn)).escaped =
      some Exn.otherExn ∧
    (TaskMapper.executeWrap true (Except.error Exn.otherExn)).replied = false := by
  decide

/-- C6, amended: any `std::exception`-derived exception thrown by the
user task is caught inside the worker loop (`Thread::execute` lines
288-299) and inside `TaskMapper::execute` (lines 452-471), logged at
Error level, and does not escape; the iteration's resulting state,
task slot and reply invocation are the same as on a normal return.
Exceptions not derived from `std::exception` are not covered by the
catch clause. -/
theorem claim6_std_exception_contained :
    ∀ (s : Thread.TStruct) (rc g : Bool),
      (Thread.iteration s rc (Except.error Exn.stdExn) g).escaped = none ∧
      (Thread.iteration s rc (Except.error Exn.stdExn) g).log =
        (if s.taskValid then [Exn.stdExn] else []) ∧
      (Thread.iteration s rc (Except.error Exn.stdExn) g).state =
        (Thread.iteration s rc (Except.ok ()) g).state ∧
      (Thread.iteration s rc (Except.error Exn.stdExn) g).taskValid =
        (Thread.iteration s rc (Except.ok ()) g).taskValid ∧
      (Thread.iteration s rc (Except.error Exn.stdExn) g).replyIdle =
        (Thread.iteration s rc (Except.ok ()) g).replyIdle ∧
      TaskMapper.executeWrap true (Except.error Exn.stdExn) =
        ⟨[Exn.stdExn], none, true⟩ := by
  intro s rc g
  obtain ⟨st, tv, fv, tid⟩ := s
  cases tv <;> cases fv <;> cases rc <;> cases g <;>
    simp [Thread.iteration, Thread.tryTask, Thread.structGetTask,
      TaskMapper.executeWrap]

/-- C2: on a live handle, `create` succeeds only in `EMPTY`, both
`configure` overloads succeed only when idle (`INITIAL` or
`BLOCKED`), `notify` succeeds only when the resulting state is
`RUNNABLE`; in any other state the operation returns `false` and
leaves the worker's data unchanged. -/
theorem claim2_thread_state_gating :
    ∀ (s : Thread.TStruct) (f tk g : Bool),
      ((Thread.create (some s)).fst = true → s.state = Thread.TState.empty) ∧
      (s.state ≠ Thread.TState.empty →
        Thread.create (some s) = (false, some s)) ∧
      ((Thread.configureFetch (some s) f).fst = true →
        (s.state = Thread.TState.initial ∨ s.state = Thread.TState.blocked)) ∧
      (¬(s.state = Thread.TState.initial ∨ s.state = Thread.TState.blocked) →
        Thread.configureFetch (some s) f = (false, some s)) ∧
      ((Thread.configureTask (some s) tk).fst = true →
        (s.state = Thread.TState.initial ∨ s.state = Thread.TState.blocked)) ∧
      (¬(s.state = Thread.TState.initial ∨ s.state = Thread.TState.blocked) →
        Thread.configureTask (some s) tk = (false, some s)) ∧
      (∀ s₁, Thread.notify (some s) g = (true, some s₁) →
        s₁.state = Thread.TState.runnable) ∧
      ((Thread.notify (some s) g).fst = false →
        (Thread.notify (some s) g).snd = some s) := by
  intro s f tk g
  obtain ⟨st, tv, fv, tid⟩ := s
  cases st <;> cases f <;> cases tk <;> cases g <;> cases tv <;> cases fv <;>
    simp [Thread.create, Thread.configureFetch, Thread.configureTask,
      Thread.notify, Thread.idle, Thread.structGetTask]

/-- Witness for C2: a running worker rejects `create` and a blocked
worker whose fetch yields a task is notified into `RUNNABLE`. -/
theorem claim2_thread_state_gating_witness :
    ((⟨Thread.TState.running, true, true, 0⟩ : Thread.TStruct).state ≠
      Thread.TState.empty) ∧
    Thread.create (some ⟨Thread.TState.running, true, true, 0⟩) =
      (false, some ⟨Thread.TState.running, true, true, 0⟩) ∧
    (Thread.notify (some ⟨Thread.TState.blocked, false, true, 0⟩) true =
      (true, some ⟨Thread.TState.runnable, true, true, 0⟩)) ∧
    (⟨Thread.TState.runnable, true, true, 0⟩ : Thread.TStruct).state =
      Thread.TState.runnable :=
  ⟨by decide,
    (claim2_thread_state_gating ⟨Thread.TState.running, true, true, 0⟩
      true true true).2.1 (by decide),
    by decide,
    (claim2_thread_state_gating ⟨Thread.TState.blocked, false, true, 0⟩
      true true true).2.2.2.2.2.2.1
      ⟨Thread.TState.runnable, true, true, 0⟩ (by decide)⟩

/-- Every trace produced by a push is empty, lock-unlock, or
lock-unlock-callback. -/
theorem push1Trace_shape (q : TaskQueue.TQState) (task : Bool) :
    TaskQueue.push1Trace q task = [] ∨
    TaskQueue.push1Trace q task =
      [TaskQueue.QEvent.lockEntry, TaskQueue.QEvent.unlockEntry] ∨
    TaskQueue.push1Trace q task =
      [TaskQueue.QEvent.lockEntry, TaskQueue.QEvent.unlockEntry,
        TaskQueue.QEvent.callback] := by
  unfold TaskQueue.push1Trace
  split_ifs <;> simp

/-- Every trace produced by a batch put is lock-unlock or
lock-unlock-callback. -/
theorem putBatchTrace_shape (q : TaskQueue.TQState) (k : Nat) :
    TaskQueue.putBatchTrace q k =
      [TaskQueue.QEvent.lockEntry, TaskQueue.QEvent.unlockEntry] ∨
    TaskQueue.putBatchTrace q k =
      [TaskQueue.QEvent.lockEntry, TaskQueue.QEvent.unlockEntry,
        TaskQueue.QEvent.callback] := by
  unfold TaskQueue.putBatchTrace
  split_ifs <;> simp

/-- In any trace of one of the push shapes, a callback event is
preceded by an unlock event. -/
theorem trace_callback_after_unlock (l : List TaskQueue.QEvent)
    (hl : l = [] ∨
      l = [TaskQueue.QEvent.lockEntry, TaskQueue.QEvent.unlockEntry] ∨
      l = [TaskQueue.QEvent.lockEntry, TaskQueue.QEvent.unlockEntry,
        TaskQueue.QEvent.callback]) :
    ∀ i, ∀ hi : i < l.length,
      l.get ⟨i, hi⟩ = TaskQueue.QEvent.callback →
      ∃ j, ∃ hj : j < l.length, j < i ∧
        l.get ⟨j, hj⟩ = TaskQueue.QEvent.unlockEntry := by
  rcases hl with rfl | rfl | rfl <;> intro i hi hc
  · exact absurd hi (by simp)
  · rcases i with _ | _ | i
    · exact absurd hc (by simp [List.get])
    · exact absurd hc (by simp [List.get])
    · exact absurd hi (by simp)
  · rcases i with _ | _ | i
    · exact absurd hc (by simp [List.get])
    · exact absurd hc (by simp [List.get])
    · rcases i with _ | i
      · exact ⟨1, by omega, by omega, rfl⟩
      · exact absurd hi (by simp)

/-- C4: for a successful put (single or batch), the notify callback is
invoked if and only if the size counter immediately before the push
was `0` (`add` returning the old value, TaskQueue.cpp lines 91 and
134); and in the event trace of either operation every callback event
is preceded by the release of the entry mutex. -/
theorem claim4_notify_after_unlock :
    ∀ (q : TaskQueue.TQState) (task : Bool) (t : Nat) (tasks : List Bool),
      ((TaskQueue.push1 q task t).fst = true →
        (TaskQueue.QEvent.callback ∈ TaskQueue.push1Trace q task ↔
          q.size = 0)) ∧
      ((TaskQueue.putBatch q tasks t).fst = true →
        (TaskQueue.QEvent.callback ∈ TaskQueue.putBatchTrace q tasks.length ↔
          q.size = 0)) ∧
      (∀ i, ∀ hi : i < (TaskQueue.push1Trace q task).length,
        (TaskQueue.push1Trace q task).get ⟨i, hi⟩ = TaskQueue.QEvent.callback →
        ∃ j, ∃ hj : j < (TaskQueue.push1Trace q task).length,
          j < i ∧ (TaskQueue.push1Trace q task).get ⟨j, hj⟩ =
            TaskQueue.QEvent.unlockEntry) ∧
      (∀ i, ∀ hi : i < (TaskQueue.putBatchTrace q tasks.length).length,
        (TaskQueue.putBatchTrace q tasks.length).get ⟨i, hi⟩ =
          TaskQueue.QEvent.callback →
        ∃ j, ∃ hj : j < (TaskQueue.putBatchTrace q tasks.length).length,
          j < i ∧ (TaskQueue.putBatchTrace q tasks.length).get ⟨j, hj⟩ =
            TaskQueue.QEvent.unlockEntry) := by
  intro q task t tasks
  refine ⟨?_, ?_, ?_, ?_⟩
  · intro hs
    cases task with
    | false => simp [TaskQueue.push1] at hs
    | true =>
      by_cases hfull :
          (decide (0 < q.capacity) && decide (q.capacity ≤ q.size)) = true
      · simp [TaskQueue.push1, hfull] at hs
      · have hb := Bool.not_eq_true _ |>.mp hfull
        have ht : TaskQueue.push1Trace q true =
            [TaskQueue.QEvent.lockEntry, TaskQueue.QEvent.unlockEntry] ++
              (if q.size == 0 then [TaskQueue.QEvent.callback] else []) := by
          simp [TaskQueue.push1Trace, hb]
        rw [ht]
        by_cases hz : q.size = 0 <;> simp [hz]
  · intro hs
    by_cases hv : TaskQueue.validB q tasks.length = true
    · have ht : TaskQueue.putBatchTrace q tasks.length =
          [TaskQueue.QEvent.lockEntry, TaskQueue.QEvent.unlockEntry] ++
            (if q.size == 0 then [TaskQueue.QEvent.callback] else []) := by
        simp [TaskQueue.putBatchTrace, hv]
      rw [ht]
      by_cases hz : q.size = 0 <;> simp [hz]
    · simp [TaskQueue.putBatch, Bool.not_eq_true _ |>.mp hv] at hs
  · exact trace_callback_after_unlock _ (push1Trace_shape q task)
  · exact trace_callback_after_unlock _ (Or.inr (putBatchTrace_shape q tasks.length))

/-- Witness for C4: pushing a valid task into an empty unbounded queue
succeeds, fires the callback, and the callback event at index `2`
follows the unlock event. -/
theorem claim4_notify_after_unlock_witness :
    ((TaskQueue.push1 ⟨0, [], [], [], [], 0⟩ true 7).fst = true) ∧
    (TaskQueue.QEvent.callback ∈
        TaskQueue.push1Trace ⟨0, [], [], [], [], 0⟩ true ↔
      (⟨0, [], [], [], [], 0⟩ : TaskQueue.TQState).size = 0) ∧
    (∃ j, ∃ hj : j < (TaskQueue.push1Trace ⟨0, [], [], [], [], 0⟩ true).length,
      j < 2 ∧ (TaskQueue.push1Trace ⟨0, [], [], [], [], 0⟩ true).get ⟨j, hj⟩ =
        TaskQueue.QEvent.unlockEntry) :=
  ⟨by decide,
    (claim4_notify_after_unlock ⟨0, [], [], [], [], 0⟩ true 7 []).1 (by decide),
    (claim4_notify_after_unlock ⟨0, [], [], [], [], 0⟩ true 7 []).2.2.1 2
      (by decide) (by decide)⟩

namespace TaskMapper

theorem alFind_alSet_self {α : Type} (l : List (Nat × α)) (k : Nat)
    (v w : α) (h : alFind l k = some w) :
    alFind (alSet l k v) k = some v := by
  induction l with
  | nil => simp [alFind] at h
  | cons p rest ih =>
    by_cases hp : p.fst = k
    · simp [alFind, alSet, hp]
    · have hp' : (p.fst == k) = false := by simp [hp]
      simp [alFind, alSet, hp'] at h ⊢
      exact ih h

theorem alFind_alSet_other {α : Type} (l : List (Nat × α)) (j k : Nat)
    (v : α) (h : j ≠ k) : alFind (alSet l j v) k = alFind l k := by
  induction l with
  | nil => rfl
  | cons p rest ih =>
    by_cases hp : p.fst = j
    · subst hp
      have h2 : (p.fst == k) = false := by simp [h]
      simp [alFind, alSet, h2, ih]
    · have hp' : (p.fst == j) = false := by simp [hp]
      have e1 : alSet (p :: rest) j v = p :: alSet rest j v := by
        simp [alSet, hp']
      rw [e1]
      by_cases hq : p.fst = k <;> simp [alFind, hq, ih]

theorem alFind_append_none {α : Type} (l t : List (Nat × α)) (k : Nat)
    (h : alFind l k = none) : alFind (l ++ t) k = alFind t k := by
  induction l with
  | nil => simp
  | cons p rest ih =>
    by_cases hp : p.fst = k
    · simp [alFind, hp] at h
    · have hp' : (p.fst == k) = false := by simp [hp]
      simp [alFind, hp'] at h ⊢
      exact ih h

theorem exist_remove_self (s : Sorter) (k : Nat) :
    Sorter.exist (Sorter.remove s k) k = false := by
  induction s with
  | nil => rfl
  | cons r rs ih =>
    by_cases hr : r.index = k
    · simp [Sorter.remove, hr, ih]
    · have hr' : (r.index == k) = false := by simp [hr]
      simp [Sorter.remove, Sorter.exist, hr, hr', ih]

theorem exist_remove_other (s : Sorter) (j k : Nat) (h : k ≠ j) :
    Sorter.exist (Sorter.remove s j) k = Sorter.exist s k := by
  induction s with
  | nil => rfl
  | cons r rs ih =>
    by_cases hr : r.index = j
    · have hj : j ≠ k := Ne.symm h
      have hk : (j == k) = false := by simp [hj]
      simp [Sorter.remove, Sorter.exist, hr, hk, ih]
    · have hr' : (r.index == j) = false := by simp [hr]
      simp [Sorter.remove, Sorter.exist, hr, hr', ih]

theorem exist_remove_of_not (s : Sorter) (j k : Nat)
    (h : Sorter.exist s k = false) :
    Sorter.exist (Sorter.remove s j) k = false := by
  by_cases hk : k = j
  · subst hk
    exact exist_remove_self s k
  · rw [exist_remove_other s j k hk]
    exact h

theorem exist_remove_imp (s : Sorter) (j k : Nat)
    (h : Sorter.exist (Sorter.remove s j) k = true) :
    Sorter.exist s k = true := by
  by_cases hk : k = j
  · subst hk
    rw [exist_remove_self s k] at h
    exact absurd h (by simp)
  · rw [exist_remove_other s j k hk] at h
    exact h

theorem exist_append (s t : Sorter) (k : Nat) :
    Sorter.exist (s ++ t) k = (Sorter.exist s k || Sorter.exist t k) := by
  induction s with
  | nil => simp [Sorter.exist]
  | cons r rs ih => simp [Sorter.exist, ih, Bool.or_assoc]

theorem exist_update_other (s : Sorter) (r : Record) (k : Nat)
    (h : k ≠ r.index) :
    Sorter.exist (Sorter.update s r) k = Sorter.exist s k := by
  have hk : (r.index == k) = false := by simp [Ne.symm h]
  simp [Sorter.update, exist_append, exist_remove_other s r.index k h,
    Sorter.exist, hk]

theorem findRec_remove_self (s : Sorter) (k : Nat) :
    Sorter.findRec (Sorter.remove s k) k = none := by
  induction s with
  | nil => rfl
  | cons r rs ih =>
    by_cases hr : r.index = k
    · simp [Sorter.remove, hr, ih]
    · have hr' : (r.index == k) = false := by simp [hr]
      simp [Sorter.remove, Sorter.findRec, hr, hr', ih]

theorem findRec_append_none (s t : Sorter) (k : Nat)
    (h : Sorter.findRec s k = none) :
    Sorter.findRec (s ++ t) k = Sorter.findRec t k := by
  induction s with
  | nil => simp
  | cons r rs ih =>
    by_cases hr : r.index = k
    · simp [Sorter.findRec, hr] at h
    · have hr' : (r.index == k) = false := by simp [hr]
      simp [Sorter.findRec, hr'] at h ⊢
      exact ih h

theorem findRec_update_self (s : Sorter) (r : Record) :
    Sorter.findRec (Sorter.update s r) r.index = some r := by
  rw [Sorter.update,
    findRec_append_none _ _ _ (findRec_remove_self s r.index)]
  simp [Sorter.findRec]

theorem foldlMin_mem (l : List Record) (a : Record) :
    l.foldl (fun acc x => if Record.ltb x acc then x else acc) a ∈ a :: l := by
  induction l generalizing a with
  | nil => simp
  | cons b l ih =>
    simp only [List.foldl]
    have hstep := ih (if Record.ltb b a then b else a)
    rcases List.mem_cons.mp hstep with h | h
    · rw [h]
      by_cases hb : Record.ltb b a = true <;> simp [hb]
    · exact List.mem_cons.mpr (Or.inr (List.mem_cons.mpr (Or.inr h)))

theorem front_mem (s : Sorter) (r : Record)
    (h : Sorter.front s = some r) : r ∈ s := by
  cases s with
  | nil => simp [Sorter.front] at h
  | cons a rs =>
    simp [Sorter.front] at h
    rw [← h]
    exact foldlMin_mem rs a

theorem mem_exist (s : Sorter) (r : Record) (h : r ∈ s) :
    Sorter.exist s r.index = true := by
  induction s with
  | nil => simp at h
  | cons a rs ih =>
    rcases List.mem_cons.mp h with h | h
    · simp [Sorter.exist, h]
    · simp [Sorter.exist, ih h]

theorem popAux_spec (hm : List (Nat × Handler)) (fuel : Nat) :
    ∀ (s s₁ : Sorter) (k : Nat), popAux hm fuel s = (some k, s₁) →
      (alFind hm k).isSome = true ∧
      (∃ r, Sorter.front s₁ = some r ∧ r.index = k) ∧
      (∀ j, Sorter.exist s j = false → Sorter.exist s₁ j = false) ∧
      Sorter.exist s k = true := by
  induction fuel with
  | zero => intro s s₁ k h; simp [popAux] at h
  | succ fuel ih =>
    intro s s₁ k h
    rw [popAux] at h
    cases hf : Sorter.front s with
    | none => rw [hf] at h; simp at h
    | some r =>
      rw [hf] at h
      by_cases hh : (alFind hm r.index).isSome = true
      · simp [hh] at h
        obtain ⟨hk, hs⟩ := h
        subst hk
        subst hs
        refine ⟨hh, ⟨r, hf, rfl⟩, fun j hj => hj, ?_⟩
        exact mem_exist s r (front_mem s r hf)
      · have hh' : (alFind hm r.index).isSome = false :=
          Bool.not_eq_true _ |>.mp hh
        simp [hh'] at h
        obtain ⟨h1, h2, h3, h4⟩ := ih _ _ _ h
        refine ⟨h1, h2, ?_, ?_⟩
        · intro j hj
          exact h3 j (exist_remove_of_not s r.index j hj)
        · exact exist_remove_imp s r.index k h4

theorem getQueue_find (qm : List (Nat × MQueue)) (k : Nat) :
    alFind (getQueue qm k).snd k = some (getQueue qm k).fst := by
  cases hq : alFind qm k with
  | some q => simp [getQueue, hq]
  | none =>
    simp [getQueue, hq]
    rw [alFind_append_none qm _ k hq]
    simp [alFind]

/-- Inversion of a successful `take`: the popped index, its handler,
its queue and the popped message exist, and the resulting state is
determined by the parallel flag and the queue's remaining oldest
time. -/
theorem take_inv (m m₁ : MapperState) (k : Nat)
    (ht : m.take = some (k, m₁)) :
    ∃ s₁ hd q msg q₁,
      m.pop = (some k, s₁) ∧
      alFind m.handleMapper k = some hd ∧
      alFind m.queueMapper k = some q ∧
      q.pop = some (msg, q₁) ∧
      m₁ = { handleMapper :=
               if hd.parallel then m.handleMapper
               else alSet m.handleMapper k { hd with idle := false },
             queueMapper := alSet m.queueMapper k q₁,
             size := m.size - 1,
             sorter :=
               if hd.parallel then
                 match q₁.time with
                 | some t => Sorter.update s₁ ⟨k, t⟩
                 | none => Sorter.remove s₁ k
               else Sorter.remove s₁ k } := by
  unfold MapperState.take at ht
  rcases hpop : m.pop with ⟨res, s₁⟩
  rw [hpop] at ht
  cases res with
  | none => simp at ht
  | some k₀ =>
    cases hh : alFind m.handleMapper k₀ with
    | none =>
      simp only [hh] at ht
      exact Option.noConfusion ht
    | some hd =>
      simp only [hh] at ht
      cases hq : alFind m.queueMapper k₀ with
      | none =>
        simp only [hq] at ht
        exact Option.noConfusion ht
      | some q =>
        simp only [hq] at ht
        cases hp : q.pop with
        | none =>
          simp only [hp] at ht
          exact Option.noConfusion ht
        | some pr =>
          obtain ⟨msg, q₁⟩ := pr
          simp only [hp, Option.some.injEq, Prod.mk.injEq] at ht
          obtain ⟨hk, hm⟩ := ht
          subst hk
          refine ⟨s₁, hd, q, msg, q₁, rfl, hh, hq, hp, ?_⟩
          rw [← hm]
          cases hpar : hd.parallel with
          | false => simp [hpar]
          | true => cases q₁.time <;> simp [hpar]

/-- Unfolded characterisation of a parked key. -/
theorem parkedB_iff (m : MapperState) (k : Nat) :
    m.parkedB k = true ↔
      (∃ hh, alFind m.handleMapper k = some hh ∧ hh.handleValid = false) ∧
      Sorter.exist m.sorter k = false := by
  unfold MapperState.parkedB
  cases hh : alFind m.handleMapper k <;> simp [hh]

/-- `m.pop` returning an index satisfies the `popAux` specification. -/
theorem pop_spec (m : MapperState) (k : Nat) (s₁ : Sorter)
    (h : m.pop = (some k, s₁)) :
    (alFind m.handleMapper k).isSome = true ∧
    (∃ r, Sorter.front s₁ = some r ∧ r.index = k) ∧
    (∀ j, Sorter.exist m.sorter j = false → Sorter.exist s₁ j = false) ∧
    Sorter.exist m.sorter k = true :=
  popAux_spec m.handleMapper m.sorter.length m.sorter s₁ k h

/-- Popping one message preserves the lock step of the message and
time lists. -/
theorem mqueue_pop_lockstep (q : MQueue) (msg : Nat) (q₁ : MQueue)
    (hl : q.messageQueue.length = q.timeQueue.length)
    (hp : q.pop = some (msg, q₁)) :
    q₁.messageQueue.length = q₁.timeQueue.length := by
  cases hm : q.messageQueue with
  | nil => simp [MQueue.pop, hm] at hp
  | cons a ms =>
    simp [MQueue.pop, hm] at hp
    obtain ⟨-, hq⟩ := hp
    rw [← hq]
    simp only [List.length_tail]
    rw [hm] at hl
    simp at hl
    omega

/-- In a lock-step queue the oldest time exists exactly when the
message list is non-empty. -/
theorem mqueue_time_of_len (q : MQueue)
    (hl : q.messageQueue.length = q.timeQueue.length) :
    (q.messageQueue = [] → q.time = none) ∧
    (q.messageQueue ≠ [] → ∃ t, q.time = some t) := by
  cases ht : q.timeQueue with
  | nil =>
    refine ⟨fun _ => by simp [MQueue.time, ht], fun hne => ?_⟩
    rw [ht] at hl
    simp at hl
    exact absurd hl hne
  | cons t ts =>
    refine ⟨fun he => ?_, fun _ => ⟨t, by simp [MQueue.time, ht]⟩⟩
    rw [he, ht] at hl
    simp at hl

/-- `sortIdx` never touches the handler map. -/
theorem sortIdx_handleMapper (m : MapperState) (j : Nat) :
    ((m.sortIdx j).fst).handleMapper = m.handleMapper := by
  unfold MapperState.sortIdx
  split
  · rfl
  · split
    · rfl
    · split <;> rfl

/-- `sortIdx` on key `j` leaves membership of any other key in the
sorter unchanged. -/
theorem sortIdx_exist_other (m : MapperState) (j k : Nat) (h : k ≠ j) :
    Sorter.exist ((m.sortIdx j).fst).sorter k = Sorter.exist m.sorter k := by
  unfold MapperState.sortIdx
  split
  · rfl
  · split
    · rfl
    · split
      · rfl
      · exact exist_update_other m.sorter _ k h

/-- `sortIdx` on a different key preserves a parked key. -/
theorem sortIdx_parked_other (m : MapperState) (j k : Nat) (h : j ≠ k)
    (hp : m.parkedB k = true) : ((m.sortIdx j).fst).parkedB k = true := by
  rw [parkedB_iff] at hp ⊢
  obtain ⟨⟨hh, hfind, hval⟩, hex⟩ := hp
  refine ⟨⟨hh, ?_, hval⟩, ?_⟩
  · rw [sortIdx_handleMapper]
    exact hfind
  · rw [sortIdx_exist_other m j k (Ne.symm h)]
    exact hex

/-- `pushIdx` preserves a parked key. -/
theorem pushIdx_parked (m : MapperState) (j k : Nat)
    (hp : m.parkedB k = true) : ((m.pushIdx j).fst).parkedB k = true := by
  obtain ⟨⟨hh, hfind, hval⟩, hex⟩ := (parkedB_iff m k).mp hp
  unfold MapperState.pushIdx
  by_cases hjk : j = k
  · subst hjk
    simp [hfind, hval]
    exact hp
  · cases hj : alFind m.handleMapper j with
    | none => exact hp
    | some h2 =>
      by_cases hv : (h2.handleValid && h2.idle) = true
      · simp [hj, hv]
        exact sortIdx_parked_other m j k hjk hp
      · simp [hj, Bool.not_eq_true _ |>.mp hv]
        exact hp

/-- `put` preserves a parked key: the message is retained but the key
stays out of the sorter and its handler stays invalid. -/
theorem put_parked (m : MapperState) (j msg t k : Nat)
    (hp : m.parkedB k = true) : ((m.put j msg t).snd).parkedB k = true := by
  obtain ⟨⟨hh, hfind, hval⟩, hex⟩ := (parkedB_iff m k).mp hp
  unfold MapperState.put
  have hm₁ : (MapperState.mk m.handleMapper
      (alSet (getQueue m.queueMapper j).snd j
        ((getQueue m.queueMapper j).fst.push1 msg t).snd)
      (m.size + 1) m.sorter).parkedB k = true := by
    rw [parkedB_iff]
    exact ⟨⟨hh, hfind, hval⟩, hex⟩
  by_cases hz : (((getQueue m.queueMapper j).fst.push1 msg t).fst == 0) = true
  · simp only [hz, if_true]
    exact pushIdx_parked _ j k hm₁
  · simp only [Bool.not_eq_true _ |>.mp hz, Bool.false_eq_true, if_false]
    exact hm₁

/-- `reply` preserves a parked key. -/
theorem reply_parked (m : MapperState) (j k : Nat)
    (hp : m.parkedB k = true) : ((m.reply j)).parkedB k = true := by
  obtain ⟨⟨hh, hfind, hval⟩, hex⟩ := (parkedB_iff m k).mp hp
  unfold MapperState.reply
  by_cases hjk : j = k
  · subst hjk
    simp only [hfind]
    have hguard : (!hh.idle && hh.handleValid) = false := by
      rw [hval]; simp
    simp only [hguard, Bool.false_eq_true, if_false]
    rw [parkedB_iff]
    exact ⟨⟨{ hh with idle := true },
      alFind_alSet_self m.handleMapper j _ hh hfind, hval⟩, hex⟩
  · cases hj : alFind m.handleMapper j with
    | none => exact hp
    | some h2 =>
      have hm₁ : (MapperState.mk
          (alSet m.handleMapper j { h2 with idle := true })
          m.queueMapper m.size m.sorter).parkedB k = true := by
        rw [parkedB_iff]
        refine ⟨⟨hh, ?_, hval⟩, hex⟩
        rw [alFind_alSet_other m.handleMapper j k _ hjk]
        exact hfind
      by_cases hguard : (!h2.idle && h2.handleValid) = true
      · simp only [hguard, if_true]
        exact sortIdx_parked_other _ j k hjk hm₁
      · simp only [Bool.not_eq_true _ |>.mp hguard, Bool.false_eq_true, if_false]
        exact hm₁

/-- `take` never dispatches a parked key and preserves its parked
status. -/
theorem take_parked (m m₁ : MapperState) (k k₁ : Nat)
    (hp : m.parkedB k = true) (ht : m.take = some (k₁, m₁)) :
    k₁ ≠ k ∧ m₁.parkedB k = true := by
  obtain ⟨⟨hh, hfind, hval⟩, hex⟩ := (parkedB_iff m k).mp hp
  obtain ⟨s₁, hd, q, msg, q₁, hpop, hhd, hq, hqpop, hm⟩ := take_inv m m₁ k₁ ht
  obtain ⟨-, -, hpres, hexk₁⟩ := pop_spec m k₁ s₁ hpop
  have hne : k₁ ≠ k := by
    intro hc
    rw [hc, hex] at hexk₁
    exact Bool.false_ne_true hexk₁
  refine ⟨hne, ?_⟩
  have hs₁ : Sorter.exist s₁ k = false := hpres k hex
  rw [hm, parkedB_iff]
  constructor
  · refine ⟨hh, ?_, hval⟩
    by_cases hpar : hd.parallel = true
    · simpa [hpar] using hfind
    · rw [Bool.not_eq_true _ |>.mp hpar]
      simpa [alFind_alSet_other m.handleMapper k₁ k _ hne] using hfind
  · by_cases hpar : hd.parallel = true
    · simp only [hpar, if_true]
      cases htq : q₁.time with
      | some t =>
        have hk : k ≠ (⟨k₁, t⟩ : Record).index := fun hc => hne (by simpa using hc.symm)
        simpa [exist_update_other s₁ ⟨k₁, t⟩ k hk] using hs₁
      | none => exact exist_remove_of_not s₁ k₁ k hs₁
    · rw [Bool.not_eq_true _ |>.mp hpar]
      simpa using exist_remove_of_not s₁ k₁ k hs₁

/-- C10: `put` on a key that has no handler entry still succeeds
(TaskMapper.hpp lines 746-769): the queue is created on demand, the
message and its time stamp are appended, the total count is
incremented, but the handler map and the sorter are untouched
(`push` at line 644 requires a handler), and `take` never dispatches a
key without a handler entry. -/
theorem claim10_put_without_handler (m : MapperState) (k msg t : Nat)
    (h0 : alFind m.handleMapper k = none) :
    (m.put k msg t).fst = true ∧
    (m.put k msg t).snd.size = m.size + 1 ∧
    (m.put k msg t).snd.sorter = m.sorter ∧
    (m.put k msg t).snd.handleMapper = m.handleMapper ∧
    alFind (m.put k msg t).snd.queueMapper k =
      some ⟨(getQueue m.queueMapper k).fst.messageQueue ++ [msg],
            (getQueue m.queueMapper k).fst.timeQueue ++ [t]⟩ ∧
    (∀ mm : MapperState, alFind mm.handleMapper k = none →
      ∀ k₁ mm₁, mm.take = some (k₁, mm₁) → k₁ ≠ k) := by
  have hsnd : (m.put k msg t).snd = MapperState.mk m.handleMapper
      (alSet (getQueue m.queueMapper k).snd k
        ((getQueue m.queueMapper k).fst.push1 msg t).snd)
      (m.size + 1) m.sorter := by
    unfold MapperState.put
    by_cases hz : ((((getQueue m.queueMapper k).fst.push1 msg t).fst == 0) = true)
    · simp only [hz, if_true]
      simp [MapperState.pushIdx, h0]
    · simp only [Bool.not_eq_true _ |>.mp hz, Bool.false_eq_true, if_false]
  refine ⟨rfl, ?_, ?_, ?_, ?_, ?_⟩
  · rw [hsnd]
  · rw [hsnd]
  · rw [hsnd]
  · rw [hsnd]
    exact alFind_alSet_self _ k _ _ (getQueue_find m.queueMapper k)
  · intro mm hmm k₁ mm₁ htake
    obtain ⟨s₁, hd, q, msg₁, q₁, hpop, hh, -, -, -⟩ :=
      take_inv mm mm₁ k₁ htake
    intro hc
    rw [hc, hmm] at hh
    exact Option.noConfusion hh

/-- Witness for C10 at the empty mapper and key `7`. -/
theorem claim10_put_without_handler_witness :
    alFind sampleEmpty.handleMapper 7 = none ∧
    ((sampleEmpty.put 7 99 3).fst = true ∧
     (sampleEmpty.put 7 99 3).snd.size = sampleEmpty.size + 1 ∧
     (sampleEmpty.put 7 99 3).snd.sorter = sampleEmpty.sorter ∧
     (sampleEmpty.put 7 99 3).snd.handleMapper = sampleEmpty.handleMapper ∧
     alFind (sampleEmpty.put 7 99 3).snd.queueMapper 7 =
       some ⟨(getQueue sampleEmpty.queueMapper 7).fst.messageQueue ++ [99],
             (getQueue sampleEmpty.queueMapper 7).fst.timeQueue ++ [3]⟩ ∧
     (∀ mm : MapperState, alFind mm.handleMapper 7 = none →
       ∀ k₁ mm₁, mm.take = some (k₁, mm₁) → k₁ ≠ 7)) :=
  ⟨rfl, claim10_put_without_handler sampleEmpty 7 99 3 rfl⟩

/-- C5: with a handler installed for `k`, `set(k, null)` succeeds and
removes `k` from the sorter (TaskMapper.hpp lines 682-689) while
leaving the queue map and the total count untouched; afterwards the
key is parked — handler entry present but invalid, key out of the
sorter — and while parked, `take` never dispatches `k` and `put`,
`take` and `reply` all keep it parked, until a `set` installs a valid
handler again. -/
theorem claim5_set_null_parks (m : MapperState) (k : Nat) (hd : Handler)
    (par : Bool) (h0 : alFind m.handleMapper k = some hd) :
    ((m.setHandle k false par).fst = true ∧
     (m.setHandle k false par).snd.queueMapper = m.queueMapper ∧
     (m.setHandle k false par).snd.size = m.size ∧
     Sorter.exist (m.setHandle k false par).snd.sorter k = false ∧
     (m.setHandle k false par).snd.parkedB k = true) ∧
    (∀ mm : MapperState, mm.parkedB k = true →
      (∀ k₁ mm₁, mm.take = some (k₁, mm₁) →
        k₁ ≠ k ∧ mm₁.parkedB k = true) ∧
      (∀ j msg t, ((mm.put j msg t).snd).parkedB k = true) ∧
      (∀ j, ((mm.reply j)).parkedB k = true)) := by
  have hset : m.setHandle k false par = (true, MapperState.mk
      (alSet m.handleMapper k { hd with handleValid := false, parallel := par })
      m.queueMapper m.size (Sorter.remove m.sorter k)) := by
    unfold MapperState.setHandle
    simp only [h0]
    simp
  refine ⟨?_, ?_⟩
  · rw [hset]
    refine ⟨rfl, rfl, rfl, exist_remove_self m.sorter k, ?_⟩
    rw [parkedB_iff]
    exact ⟨⟨_, alFind_alSet_self m.handleMapper k _ hd h0, rfl⟩,
      exist_remove_self m.sorter k⟩
  · intro mm hmm
    exact ⟨fun k₁ mm₁ ht => take_parked mm mm₁ k k₁ hmm ht,
      fun j msg t => put_parked mm j msg t k hmm,
      fun j => reply_parked mm j k hmm⟩

/-- Witness for C5 at the one-key mapper with a serial handler. -/
theorem claim5_set_null_parks_witness :
    alFind sampleSerial.handleMapper 5 = some ⟨true, false, true⟩ ∧
    (((sampleSerial.setHandle 5 false false).fst = true ∧
      (sampleSerial.setHandle 5 false false).snd.queueMapper =
        sampleSerial.queueMapper ∧
      (sampleSerial.setHandle 5 false false).snd.size = sampleSerial.size ∧
      Sorter.exist (sampleSerial.setHandle 5 false false).snd.sorter 5 = false ∧
      (sampleSerial.setHandle 5 false false).snd.parkedB 5 = true) ∧
     (∀ mm : MapperState, mm.parkedB 5 = true →
       (∀ k₁ mm₁, mm.take = some (k₁, mm₁) →
         k₁ ≠ 5 ∧ mm₁.parkedB 5 = true) ∧
       (∀ j msg t, ((mm.put j msg t).snd).parkedB 5 = true) ∧
       (∀ j, ((mm.reply j)).parkedB 5 = true))) :=
  ⟨rfl, claim5_set_null_parks sampleSerial 5 ⟨true, false, true⟩ false rfl⟩

/-- C1: when `take` succeeds, the dispatched key is the front record
of the sorter (after the stale-record pruning done by `pop`); if the
key's handler is serial the handler's idle flag is set to `false` and
the key is removed from the sorter; if it is parallel the idle flag is
untouched and the sorter record is refreshed to the queue's new oldest
time stamp when messages remain, the key being removed from the sorter
only when its message queue has become empty (TaskMapper.hpp lines
485-522). -/
theorem claim1_take_dispatch (m m₁ : MapperState) (k : Nat)
    (htake : m.take = some (k, m₁))
    (hlock : ∀ q, alFind m.queueMapper k = some q →
      q.messageQueue.length = q.timeQueue.length) :
    (∃ r, Sorter.front (m.pop).snd = some r ∧ r.index = k) ∧
    ∃ hd q msg q₁,
      alFind m.handleMapper k = some hd ∧
      alFind m.queueMapper k = some q ∧
      q.pop = some (msg, q₁) ∧
      (hd.parallel = false →
        alFind m₁.handleMapper k = some { hd with idle := false } ∧
        Sorter.exist m₁.sorter k = false) ∧
      (hd.parallel = true →
        alFind m₁.handleMapper k = some hd ∧
        (q₁.messageQueue = [] → Sorter.exist m₁.sorter k = false) ∧
        (q₁.messageQueue ≠ [] → ∃ t, q₁.time = some t ∧
          Sorter.findRec m₁.sorter k = some ⟨k, t⟩)) := by
  obtain ⟨s₁, hd, q, msg, q₁, hpop, hh, hq, hqpop, hm⟩ := take_inv m m₁ k htake
  obtain ⟨-, hfront, -, -⟩ := pop_spec m k s₁ hpop
  constructor
  · rw [hpop]
    exact hfront
  · refine ⟨hd, q, msg, q₁, hh, hq, hqpop, ?_, ?_⟩
    · intro hpar
      rw [hm]
      constructor
      · simp only [hpar, Bool.false_eq_true, if_false]
        exact alFind_alSet_self m.handleMapper k _ hd hh
      · simp only [hpar, Bool.false_eq_true, if_false]
        exact exist_remove_self s₁ k
    · intro hpar
      have hl := hlock q hq
      have hl₁ := mqueue_pop_lockstep q msg q₁ hl hqpop
      obtain ⟨hte, htne⟩ := mqueue_time_of_len q₁ hl₁
      rw [hm]
      refine ⟨?_, ?_, ?_⟩
      · simp only [hpar, if_true]
        exact hh
      · intro hempty
        simp only [hpar, if_true, hte hempty]
        exact exist_remove_self s₁ k
      · intro hnempty
        obtain ⟨t, htq⟩ := htne hnempty
        refine ⟨t, htq, ?_⟩
        simp only [hpar, if_true, htq]
        exact findRec_update_self s₁ ⟨k, t⟩

/-- Witness for C1: taking from the one-key serial mapper dispatches
key `5`, marks the handler busy and empties the sorter. -/
theorem claim1_take_dispatch_witness :
    sampleSerial.take =
      some (5, ⟨[(5, ⟨true, false, false⟩)], [(5, ⟨[], []⟩)], 0, []⟩) ∧
    ((∃ r, Sorter.front (sampleSerial.pop).snd = some r ∧ r.index = 5) ∧
     ∃ hd q msg q₁,
       alFind sampleSerial.handleMapper 5 = some hd ∧
       alFind sampleSerial.queueMapper 5 = some q ∧
       q.pop = some (msg, q₁) ∧
       (hd.parallel = false →
         alFind (⟨[(5, ⟨true, false, false⟩)], [(5, ⟨[], []⟩)], 0, []⟩ :
             MapperState).handleMapper 5 = some { hd with idle := false } ∧
         Sorter.exist (⟨[(5, ⟨true, false, false⟩)], [(5, ⟨[], []⟩)], 0, []⟩ :
             MapperState).sorter 5 = false) ∧
       (hd.parallel = true →
         alFind (⟨[(5, ⟨true, false, false⟩)], [(5, ⟨[], []⟩)], 0, []⟩ :
             MapperState).handleMapper 5 = some hd ∧
         (q₁.messageQueue = [] →
           Sorter.exist (⟨[(5, ⟨true, false, false⟩)], [(5, ⟨[], []⟩)], 0, []⟩ :
               MapperState).sorter 5 = false) ∧
         (q₁.messageQueue ≠ [] → ∃ t, q₁.time = some t ∧
           Sorter.findRec (⟨[(5, ⟨true, false, false⟩)], [(5, ⟨[], []⟩)], 0, []⟩ :
               MapperState).sorter 5 = some ⟨5, t⟩))) :=
  ⟨by decide,
    claim1_take_dispatch sampleSerial
      ⟨[(5, ⟨true, false, false⟩)], [(5, ⟨[], []⟩)], 0, []⟩ 5 (by decide)
      (fun q hq => by
        simp only [show alFind sampleSerial.queueMapper 5 =
            some ⟨[42], [10]⟩ from rfl, Option.some.injEq] at hq
        rw [← hq]
        rfl)⟩

end TaskMapper

end ThreadPoolLib
